import Mathlib

/-!
Shallow embedding of `src/rfid_puzzle_final.ino` (RFID puzzle system).

The core modelled here is the mode state machine, the button gesture
classifier, the card event dispatcher and the combination store, following
the sketch's functions `checkButtonPress`, `compareUID`, `handleReader`,
`programmingLoop`, `puzzleLoop`, `setComboLoop`, `saveComboToEEPROM`,
`loadComboFromEEPROM` and `loop`.

Hardware and transport are abstracted into a per-tick input record: the
button level, the current `millis()` reading, card presence and UID as
reported by the reader, and the outcome of the MIFARE read/write performed
by `readCard` / `writeCard` (which internally retry; only their Boolean
outcome reaches the core logic).  Presentation calls (LED animations,
buzzer tones, relay actuation) are recorded as an event trace.
-/

namespace RfidPuzzle

/-- `enum Mode {PUZZLE, PROGRAM, SET_COMBO}` (line 59). -/
inductive Mode
  | PUZZLE
  | PROGRAM
  | SET_COMBO
deriving DecidableEq, Repr

/-- Presentation / side-effect calls made by the core, recorded as a trace.
`comboFanfare` abstracts the inline LED/melody block of `setComboLoop`
(lines 476-495). -/
inductive Event
  | animateModeChange (m : Mode)
  | beepModeChange
  | clearStrip
  | showNumber (n : Nat)
  | triggerRelay
  | toneCall (freq dur : Nat)
  | animateCardRead (position total : Nat)
  | showProgressBar (current total : Nat)
  | animateWriteSuccess
  | animateWriteFailure
  | animateProgress (current total : Nat)
  | animateSuccess
  | animateFailure
  | comboFanfare
deriving DecidableEq, Repr

/-- `#define MAX_CARDS 10` (line 68). -/
def MAX_CARDS : Nat := 10

/-- `#define EEPROM_MAGIC_ADDR 0` (line 49). -/
def EEPROM_MAGIC_ADDR : Nat := 0

/-- `#define EEPROM_LENGTH_ADDR 1` (line 50). -/
def EEPROM_LENGTH_ADDR : Nat := 1

/-- `#define EEPROM_CODE_ADDR 2` (line 51). -/
def EEPROM_CODE_ADDR : Nat := 2

/-- `#define EEPROM_MAGIC_VALUE 0x42` (line 52). -/
def EEPROM_MAGIC_VALUE : Nat := 0x42

/-- The global mutable state of the sketch: the globals of lines 60-81,
the `static` locals of `checkButtonPress`, `programmingLoop` and
`handleReader`, and the EEPROM contents (byte-addressable storage).
`lastUID` holds the significant prefix of the tracked UID
(`lastUID`/`lastUIDSize` in the sketch; clearing `lastUIDSize` to 0 is
modelled as the empty list). -/
structure SysState where
  currentMode : Mode
  correctCode : List Nat
  codeLength : Nat
  enteredValues : List Nat
  currentIndex : Nat
  selectedValue : Nat
  cardCurrentlyPresent : Bool
  lastUID : List Nat
  wasPressed : Bool
  pressStartTime : Nat
  progButtonWasPressed : Bool
  lastCardCheckTime : Nat
  eeprom : Nat → Nat

/-- The environment's contribution to one `loop()` iteration: button level
(`digitalRead(BUTTON_PIN) == LOW`), current `millis()`, whether
`PICC_IsNewCardPresent() && PICC_ReadCardSerial()` succeeded together with
the reported UID, and the outcomes `readCard` / `writeCard` would return
if invoked this tick (`readResult = none` models a failed read). -/
structure TickInput where
  buttonLow : Bool
  millisNow : Nat
  cardPresent : Bool
  cardUID : List Nat
  readResult : Option Nat
  writeOk : Bool

/-- Initial values of the globals (lines 60-81): mode `PUZZLE`, default
code `{1,2,3,4}` padded with zeros to `MAX_CARDS`, length 4, all trackers
cleared; `e` is the EEPROM content found at power-up. -/
def initState (e : Nat → Nat) : SysState :=
  { currentMode := Mode.PUZZLE
  , correctCode := [1, 2, 3, 4, 0, 0, 0, 0, 0, 0]
  , codeLength := 4
  , enteredValues := [0, 0, 0, 0, 0, 0, 0, 0, 0, 0]
  , currentIndex := 0
  , selectedValue := 0
  , cardCurrentlyPresent := false
  , lastUID := []
  , wasPressed := false
  , pressStartTime := 0
  , progButtonWasPressed := false
  , lastCardCheckTime := 0
  , eeprom := e }

/-- `compareUID` (lines 223-229): sizes must match and all bytes of the
significant prefix must agree. -/
def compareUID (uid1 uid2 : List Nat) : Bool :=
  if uid1.length != uid2.length then false
  else (List.range uid1.length).all (fun i => uid1.getD i 0 == uid2.getD i 0)

/-- The gesture taxonomy of `checkButtonPress`: sub-100ms presses are
noise, 100ms..4000ms is a short press, 4000ms and above is a long hold. -/
inductive Gesture
  | NoOp
  | ShortPress
  | LongHold
deriving DecidableEq, Repr

/-- Duration classification used by `checkButtonPress` (lines 198, 206):
first `pressDuration >= 4000`, then `pressDuration >= 100 &&
pressDuration < 4000`, else nothing. -/
def classifyPress (d : Nat) : Gesture :=
  if 4000 ≤ d then Gesture.LongHold
  else if 100 ≤ d ∧ d < 4000 then Gesture.ShortPress
  else Gesture.NoOp

/-- The release-edge effect of a classified gesture on the state
(bodies of lines 198-215). -/
def gestureStep (g : Gesture) (s : SysState) : SysState × List Event :=
  match g with
  | Gesture.LongHold =>
    if s.currentMode ≠ Mode.SET_COMBO then
      ({ s with currentMode := Mode.SET_COMBO, currentIndex := 0, wasPressed := false },
       [Event.animateModeChange Mode.SET_COMBO, Event.beepModeChange, Event.clearStrip])
    else ({ s with wasPressed := false }, [])
  | Gesture.ShortPress =>
    if s.currentMode = Mode.PUZZLE then
      ({ s with currentMode := Mode.PROGRAM, selectedValue := 0, wasPressed := false },
       [Event.animateModeChange Mode.PROGRAM, Event.beepModeChange,
        Event.showNumber 0, Event.triggerRelay])
    else ({ s with wasPressed := false }, [])
  | Gesture.NoOp => ({ s with wasPressed := false }, [])

/-- `checkButtonPress` (lines 185-220): while the button is held only the
press start is latched; on release the completed press duration is
classified and dispatched. -/
def checkButtonPress (inp : TickInput) (s : SysState) : SysState × List Event :=
  if inp.buttonLow then
    if !s.wasPressed then
      ({ s with wasPressed := true, pressStartTime := inp.millisNow }, [])
    else (s, [])
  else
    if s.wasPressed then
      let pressDur := inp.millisNow - s.pressStartTime
      if 4000 ≤ pressDur then
        if s.currentMode ≠ Mode.SET_COMBO then
          ({ s with currentMode := Mode.SET_COMBO, currentIndex := 0, wasPressed := false },
           [Event.animateModeChange Mode.SET_COMBO, Event.beepModeChange, Event.clearStrip])
        else ({ s with wasPressed := false }, [])
      else if 100 ≤ pressDur ∧ pressDur < 4000 then
        if s.currentMode = Mode.PUZZLE then
          ({ s with currentMode := Mode.PROGRAM, selectedValue := 0, wasPressed := false },
           [Event.animateModeChange Mode.PROGRAM, Event.beepModeChange,
            Event.showNumber 0, Event.triggerRelay])
        else ({ s with wasPressed := false }, [])
      else ({ s with wasPressed := false }, [])
    else (s, [])

/-- The per-mode body of `handleReader`'s new-card dispatch
(lines 369-415): write in `PROGRAM`, read-and-append in `PUZZLE`,
read-and-overwrite-combination in `SET_COMBO`. -/
def dispatchCard (inp : TickInput) (s : SysState) : SysState × List Event :=
  match s.currentMode with
  | Mode.PROGRAM =>
    if inp.writeOk then
      (s, [Event.toneCall 800 100, Event.animateWriteSuccess, Event.showNumber s.selectedValue])
    else
      (s, [Event.toneCall 200 100, Event.animateWriteFailure, Event.showNumber s.selectedValue])
  | Mode.PUZZLE =>
    match inp.readResult with
    | some val =>
      ({ s with enteredValues := s.enteredValues.set s.currentIndex val,
                currentIndex := s.currentIndex + 1 },
       [Event.toneCall 1500 100, Event.animateCardRead (s.currentIndex + 1) s.codeLength,
        Event.showProgressBar (s.currentIndex + 1) s.codeLength])
    | none =>
      (s, [Event.toneCall 200 100, Event.animateWriteFailure,
           Event.showProgressBar s.currentIndex s.codeLength])
  | Mode.SET_COMBO =>
    match inp.readResult with
    | some val =>
      ({ s with correctCode := s.correctCode.set s.currentIndex val,
                currentIndex := s.currentIndex + 1 },
       [Event.toneCall 1500 100, Event.animateProgress (s.currentIndex + 1) s.codeLength])
    | none =>
      (s, [Event.toneCall 200 100, Event.animateWriteFailure,
           Event.animateProgress s.currentIndex s.codeLength])

/-- `handleReader` (lines 350-424): 20ms poll rate limit, then the
absent-to-present edge detection with UID deduplication; on a qualifying
new card the active mode's handler runs; on present-to-absent the tracked
identity is cleared (`lastUIDSize = 0`). -/
def handleReader (inp : TickInput) (s : SysState) : SysState × List Event :=
  if inp.millisNow - s.lastCardCheckTime < 20 then (s, [])
  else
    let s1 := { s with lastCardCheckTime := inp.millisNow }
    if inp.cardPresent then
      if !s1.cardCurrentlyPresent then
        let s2 := { s1 with cardCurrentlyPresent := true }
        if !compareUID inp.cardUID s2.lastUID then
          let s3 := if inp.cardUID.length ≤ 10 then { s2 with lastUID := inp.cardUID } else s2
          dispatchCard inp s3
        else (s2, [])
      else (s1, [])
    else
      if s1.cardCurrentlyPresent then
        ({ s1 with cardCurrentlyPresent := false, lastUID := [] }, [])
      else (s1, [])

/-- Whether `handleReader` dispatched a new-card event this tick: every
branch of the per-mode dispatch emits at least one presentation call, and
no other path emits any. -/
def readerDispatched (inp : TickInput) (s : SysState) : Bool :=
  !(handleReader inp s).2.isEmpty

/-- The element-wise comparison of `puzzleLoop` (lines 451-455). -/
def entriesMatch (s : SysState) : Bool :=
  (List.range s.codeLength).all (fun i => s.enteredValues.getD i 0 == s.correctCode.getD i 0)

/-- `puzzleLoop` (lines 447-467): poll the reader; once the accumulator
reaches the code length, compare element-wise, present the outcome
(success also fires the relay), and reset the accumulator. -/
def puzzleLoop (inp : TickInput) (s : SysState) : SysState × List Event :=
  let r := handleReader inp s
  if r.1.currentIndex ≥ r.1.codeLength then
    if entriesMatch r.1 then
      ({ r.1 with currentIndex := 0 },
       r.2 ++ [Event.animateSuccess, Event.triggerRelay, Event.clearStrip])
    else
      ({ r.1 with currentIndex := 0 }, r.2 ++ [Event.animateFailure, Event.clearStrip])
  else r

/-- Point update of the byte-addressable EEPROM. -/
def eepromWrite (m : Nat → Nat) (addr v : Nat) : Nat → Nat :=
  fun a => if a = addr then v else m a

/-- `saveComboToEEPROM` (lines 506-512): magic byte, length byte, then the
`codeLength` code values. -/
def saveComboToEEPROM (s : SysState) : SysState :=
  let m0 := eepromWrite s.eeprom EEPROM_MAGIC_ADDR EEPROM_MAGIC_VALUE
  let m1 := eepromWrite m0 EEPROM_LENGTH_ADDR s.codeLength
  let m2 := (List.range s.codeLength).foldl
    (fun m i => eepromWrite m (EEPROM_CODE_ADDR + i) (s.correctCode.getD i 0)) m1
  { s with eeprom := m2 }

/-- `setComboLoop` (lines 470-503): poll the reader; once the accumulator
reaches the code length, persist, play the completion fanfare, reset the
accumulator and revert to `PUZZLE`. -/
def setComboLoop (inp : TickInput) (s : SysState) : SysState × List Event :=
  let r := handleReader inp s
  if r.1.currentIndex ≥ r.1.codeLength then
    let s2 := saveComboToEEPROM r.1
    ({ s2 with currentIndex := 0, currentMode := Mode.PUZZLE },
     r.2 ++ [Event.comboFanfare, Event.toneCall 1047 400, Event.clearStrip,
             Event.animateModeChange Mode.PUZZLE])
  else r

/-- `programmingLoop` (lines 427-444): local press edge detector that
increments `selectedValue` with wrap 9 to 0, then the reader poll. -/
def programmingLoop (inp : TickInput) (s : SysState) : SysState × List Event :=
  let p :=
    if inp.buttonLow then
      if !s.progButtonWasPressed then
        let v := if s.selectedValue + 1 > 9 then 0 else s.selectedValue + 1
        ({ s with progButtonWasPressed := true, selectedValue := v },
         [Event.showNumber v, Event.toneCall 1000 50])
      else (s, ([] : List Event))
    else ({ s with progButtonWasPressed := false }, ([] : List Event))
  let r := handleReader inp p.1
  (r.1, p.2 ++ r.2)

/-- `loadComboFromEEPROM` (lines 514-524): accept the record only when the
magic byte matches and the length byte is in `1..MAX_CARDS`; otherwise
leave everything untouched. -/
def loadComboFromEEPROM (s : SysState) : SysState :=
  if s.eeprom EEPROM_MAGIC_ADDR = EEPROM_MAGIC_VALUE then
    let savedLength := s.eeprom EEPROM_LENGTH_ADDR
    if 0 < savedLength ∧ savedLength ≤ MAX_CARDS then
      { s with codeLength := savedLength
             , correctCode := (List.range savedLength).foldl
                 (fun c i => c.set i (s.eeprom (EEPROM_CODE_ADDR + i))) s.correctCode }
    else s
  else s

/-- One iteration of `loop()` (lines 155-182): gesture check first, then
the active mode's handler (the hardware health check of lines 156-164
touches only the reader peripheral). -/
def loopTick (inp : TickInput) (s : SysState) : SysState × List Event :=
  let b := checkButtonPress inp s
  let r :=
    match b.1.currentMode with
    | Mode.PROGRAM => programmingLoop inp b.1
    | Mode.SET_COMBO => setComboLoop inp b.1
    | Mode.PUZZLE => puzzleLoop inp b.1
  (r.1, b.2 ++ r.2)

/-- State right after `setup()` (line 148 runs `loadComboFromEEPROM`). -/
def startupState (e : Nat → Nat) : SysState :=
  loadComboFromEEPROM (initState e)

/-- States reachable by the main loop from power-up with EEPROM content
`e`, under arbitrary environment inputs. -/
inductive Reachable (e : Nat → Nat) : SysState → Prop
  | init : Reachable e (startupState e)
  | step (inp : TickInput) {s : SysState} :
      Reachable e s → Reachable e (loopTick inp s).1

/-- The state invariant of the main loop: the accumulator index is
strictly below the code length, the code length is in `1..MAX_CARDS`, and
both arrays have their compile-time size. -/
def Inv (s : SysState) : Prop :=
  s.currentIndex < s.codeLength ∧ 1 ≤ s.codeLength ∧ s.codeLength ≤ MAX_CARDS ∧
  s.correctCode.length = MAX_CARDS ∧ s.enteredValues.length = MAX_CARDS

/-- An all-zero EEPROM image (invalid record: bad magic byte). -/
def zeroEeprom : Nat → Nat := fun _ => 0

/-- A tick with the button released and no card. -/
def releaseTick (t : Nat) : TickInput :=
  { buttonLow := false, millisNow := t, cardPresent := false, cardUID := [],
    readResult := none, writeOk := false }

/-- A tick with the button held down and no card. -/
def holdTick (t : Nat) : TickInput :=
  { buttonLow := true, millisNow := t, cardPresent := false, cardUID := [],
    readResult := none, writeOk := false }

/-- A tick with a card present and a given transport read outcome. -/
def cardTick (t : Nat) (uid : List Nat) (r : Option Nat) : TickInput :=
  { buttonLow := false, millisNow := t, cardPresent := true, cardUID := uid,
    readResult := r, writeOk := true }

/-- Fresh state with the press latch set (a press was latched at t=0). -/
def sPzPressed : SysState := { initState zeroEeprom with wasPressed := true }

/-- Same, but already in `SetCombo` with a partial accumulator. -/
def sScPressed : SysState :=
  { initState zeroEeprom with wasPressed := true, currentMode := Mode.SET_COMBO, currentIndex := 2 }

/-- Fresh state with the press latch set and a partial accumulator. -/
def sPzPressedMid : SysState := { initState zeroEeprom with wasPressed := true, currentIndex := 2 }

/-- Puzzle state with three entries `1,2,3` already accumulated. -/
def sPzThree : SysState :=
  { initState zeroEeprom with
      currentIndex := 3
      enteredValues := [1, 2, 3, 0, 0, 0, 0, 0, 0, 0] }

/-- `SetCombo` state with three new values `5,6,7` already written. -/
def sScThree : SysState :=
  { initState zeroEeprom with
      currentMode := Mode.SET_COMBO
      currentIndex := 3
      correctCode := [5, 6, 7, 0, 0, 0, 0, 0, 0, 0] }

/-- State tracking a present card with UID `[3]`. -/
def sGone : SysState :=
  { initState zeroEeprom with
      cardCurrentlyPresent := true
      lastUID := [3] }

/-- EEPROM image: good magic byte but length byte 0. -/
def eLen0 : Nat → Nat := fun a => if a = 0 then 0x42 else 0

/-- EEPROM image: good magic byte but length byte 11 (above MAX_CARDS). -/
def eLen11 : Nat → Nat := fun a => if a = 0 then 0x42 else if a = 1 then 11 else 0

/-- EEPROM image: valid record of length 2 with values 7, 8. -/
def eValid : Nat → Nat :=
  fun a => if a = 0 then 0x42 else if a = 1 then 2 else
    if a = 2 then 7 else if a = 3 then 8 else 0

/-- EEPROM image: valid record of length 4 with values 1,2,3,4. -/
def eDefault : Nat → Nat :=
  fun a => if a = 0 then 0x42 else if a = 1 then 4 else if a ≤ 5 then a - 1 else 0

/-- State reached from a valid persisted `[1,2,3,4]` record by latching a
button press at t=1000, releasing it at t=6000 (a 5000ms long hold, which
enters `SetCombo`), and then placing a card that reads value 9. -/
def c2state : SysState :=
  (loopTick (cardTick 6100 [7] (some 9))
    (loopTick (releaseTick 6000)
      (loopTick (holdTick 1000) (startupState eDefault)).1).1).1

/-- Frame facts about the per-mode dispatch: the mode, code length,
storage, presence tracker and press trackers are untouched; the index
grows by at most one; list lengths are preserved. -/
theorem dispatchCard_fields (inp : TickInput) (s : SysState) :
    (dispatchCard inp s).1.currentMode = s.currentMode ∧
    (dispatchCard inp s).1.codeLength = s.codeLength ∧
    (dispatchCard inp s).1.eeprom = s.eeprom ∧
    (dispatchCard inp s).1.cardCurrentlyPresent = s.cardCurrentlyPresent ∧
    (dispatchCard inp s).1.lastUID = s.lastUID ∧
    (dispatchCard inp s).1.correctCode.length = s.correctCode.length ∧
    (dispatchCard inp s).1.enteredValues.length = s.enteredValues.length ∧
    (dispatchCard inp s).1.currentIndex ≤ s.currentIndex + 1 ∧
    s.currentIndex ≤ (dispatchCard inp s).1.currentIndex ∧
    (dispatchCard inp s).1.lastCardCheckTime = s.lastCardCheckTime ∧
    (dispatchCard inp s).1.wasPressed = s.wasPressed ∧
    (dispatchCard inp s).1.pressStartTime = s.pressStartTime ∧
    (dispatchCard inp s).1.progButtonWasPressed = s.progButtonWasPressed ∧
    (dispatchCard inp s).1.selectedValue = s.selectedValue := by
  cases hm : s.currentMode <;> cases hr : inp.readResult <;>
    simp [dispatchCard, hm, hr, List.length_set] <;> split <;> simp_all

theorem dispatchCard_mode (inp : TickInput) (s : SysState) :
    (dispatchCard inp s).1.currentMode = s.currentMode :=
  (dispatchCard_fields inp s).1

theorem dispatchCard_codeLength (inp : TickInput) (s : SysState) :
    (dispatchCard inp s).1.codeLength = s.codeLength :=
  (dispatchCard_fields inp s).2.1

theorem dispatchCard_eeprom (inp : TickInput) (s : SysState) :
    (dispatchCard inp s).1.eeprom = s.eeprom :=
  (dispatchCard_fields inp s).2.2.1

theorem dispatchCard_present (inp : TickInput) (s : SysState) :
    (dispatchCard inp s).1.cardCurrentlyPresent = s.cardCurrentlyPresent :=
  (dispatchCard_fields inp s).2.2.2.1

theorem dispatchCard_lastUID (inp : TickInput) (s : SysState) :
    (dispatchCard inp s).1.lastUID = s.lastUID :=
  (dispatchCard_fields inp s).2.2.2.2.1

theorem dispatchCard_ccLen (inp : TickInput) (s : SysState) :
    (dispatchCard inp s).1.correctCode.length = s.correctCode.length :=
  (dispatchCard_fields inp s).2.2.2.2.2.1

theorem dispatchCard_evLen (inp : TickInput) (s : SysState) :
    (dispatchCard inp s).1.enteredValues.length = s.enteredValues.length :=
  (dispatchCard_fields inp s).2.2.2.2.2.2.1

theorem dispatchCard_idx_le (inp : TickInput) (s : SysState) :
    (dispatchCard inp s).1.currentIndex ≤ s.currentIndex + 1 :=
  (dispatchCard_fields inp s).2.2.2.2.2.2.2.1

theorem dispatchCard_le_idx (inp : TickInput) (s : SysState) :
    s.currentIndex ≤ (dispatchCard inp s).1.currentIndex :=
  (dispatchCard_fields inp s).2.2.2.2.2.2.2.2.1

theorem dispatchCard_wasPressedEq (inp : TickInput) (s : SysState) :
    (dispatchCard inp s).1.wasPressed = s.wasPressed :=
  (dispatchCard_fields inp s).2.2.2.2.2.2.2.2.2.2.1

theorem dispatchCard_pressStart (inp : TickInput) (s : SysState) :
    (dispatchCard inp s).1.pressStartTime = s.pressStartTime :=
  (dispatchCard_fields inp s).2.2.2.2.2.2.2.2.2.2.2.1

theorem dispatchCard_progBtn (inp : TickInput) (s : SysState) :
    (dispatchCard inp s).1.progButtonWasPressed = s.progButtonWasPressed :=
  (dispatchCard_fields inp s).2.2.2.2.2.2.2.2.2.2.2.2.1

theorem dispatchCard_selected (inp : TickInput) (s : SysState) :
    (dispatchCard inp s).1.selectedValue = s.selectedValue :=
  (dispatchCard_fields inp s).2.2.2.2.2.2.2.2.2.2.2.2.2

/-- The per-mode dispatch always emits at least one presentation call. -/
theorem dispatchCard_events_ne_nil (inp : TickInput) (s : SysState) :
    (dispatchCard inp s).2 ≠ [] := by
  cases hm : s.currentMode <;> cases hr : inp.readResult <;>
    simp [dispatchCard, hm, hr] <;> split <;> simp_all

/-- Case analysis on one reader poll: either the poll is rate-limited, or
no card / a still-present card / a duplicate UID leaves the trackers with
no dispatch, or a removal clears the tracked identity, or the per-mode
dispatch runs on the updated trackers. -/
theorem handleReader_cases (inp : TickInput) (s : SysState) :
    handleReader inp s = (s, []) ∨
    handleReader inp s = ({ s with lastCardCheckTime := inp.millisNow }, []) ∨
    handleReader inp s =
      ({ s with lastCardCheckTime := inp.millisNow, cardCurrentlyPresent := true }, []) ∨
    handleReader inp s =
      ({ s with lastCardCheckTime := inp.millisNow, cardCurrentlyPresent := false,
                lastUID := [] }, []) ∨
    (handleReader inp s =
        dispatchCard inp
          { s with lastCardCheckTime := inp.millisNow, cardCurrentlyPresent := true,
                   lastUID := inp.cardUID } ∨
     handleReader inp s =
        dispatchCard inp
          { s with lastCardCheckTime := inp.millisNow, cardCurrentlyPresent := true }) := by
  unfold handleReader
  by_cases hg : inp.millisNow - s.lastCardCheckTime < 20
  · simp [hg]
  · by_cases hp : inp.cardPresent = true
    · by_cases hf : s.cardCurrentlyPresent = true
      · simp [hg, hp, hf]
      · by_cases hu : compareUID inp.cardUID s.lastUID = true
        · simp [hg, hp, hf, hu]
        · by_cases hl : inp.cardUID.length ≤ 10
          · refine Or.inr (Or.inr (Or.inr (Or.inr (Or.inl ?_))))
            simp [hg, hp, hf, hu, hl]
          · refine Or.inr (Or.inr (Or.inr (Or.inr (Or.inr ?_))))
            simp [hg, hp, hf, hu, hl]
    · by_cases hf : s.cardCurrentlyPresent = true
      · simp [hg, hp, hf]
      · simp [hg, hp, hf]

/-- Frame facts about one reader poll: the mode, code length, storage,
selection and button trackers are untouched; the index grows by at most
one; list lengths are preserved. -/
theorem handleReader_fields (inp : TickInput) (s : SysState) :
    (handleReader inp s).1.currentMode = s.currentMode ∧
    (handleReader inp s).1.codeLength = s.codeLength ∧
    (handleReader inp s).1.eeprom = s.eeprom ∧
    (handleReader inp s).1.correctCode.length = s.correctCode.length ∧
    (handleReader inp s).1.enteredValues.length = s.enteredValues.length ∧
    (handleReader inp s).1.currentIndex ≤ s.currentIndex + 1 ∧
    s.currentIndex ≤ (handleReader inp s).1.currentIndex ∧
    (handleReader inp s).1.wasPressed = s.wasPressed ∧
    (handleReader inp s).1.pressStartTime = s.pressStartTime ∧
    (handleReader inp s).1.progButtonWasPressed = s.progButtonWasPressed ∧
    (handleReader inp s).1.selectedValue = s.selectedValue := by
  rcases handleReader_cases inp s with h | h | h | h | h | h <;> rw [h]
  case _ => simp
  case _ => simp
  case _ => simp
  case _ => simp
  case _ =>
    exact ⟨dispatchCard_mode inp _, dispatchCard_codeLength inp _, dispatchCard_eeprom inp _,
      dispatchCard_ccLen inp _, dispatchCard_evLen inp _,
      dispatchCard_idx_le inp
        { s with lastCardCheckTime := inp.millisNow, cardCurrentlyPresent := true,
                 lastUID := inp.cardUID },
      dispatchCard_le_idx inp
        { s with lastCardCheckTime := inp.millisNow, cardCurrentlyPresent := true,
                 lastUID := inp.cardUID },
      dispatchCard_wasPressedEq inp _, dispatchCard_pressStart inp _,
      dispatchCard_progBtn inp _, dispatchCard_selected inp _⟩
  case _ =>
    exact ⟨dispatchCard_mode inp _, dispatchCard_codeLength inp _, dispatchCard_eeprom inp _,
      dispatchCard_ccLen inp _, dispatchCard_evLen inp _,
      dispatchCard_idx_le inp
        { s with lastCardCheckTime := inp.millisNow, cardCurrentlyPresent := true },
      dispatchCard_le_idx inp
        { s with lastCardCheckTime := inp.millisNow, cardCurrentlyPresent := true },
      dispatchCard_wasPressedEq inp _, dispatchCard_pressStart inp _,
      dispatchCard_progBtn inp _, dispatchCard_selected inp _⟩

/-- In `PROGRAM` mode the dispatch writes to the card and leaves the
whole core state unchanged. -/
theorem dispatchCard_program_id (inp : TickInput) (s : SysState)
    (hm : s.currentMode = Mode.PROGRAM) : (dispatchCard inp s).1 = s := by
  simp [dispatchCard, hm]; split <;> rfl

/-- In `PUZZLE` mode the dispatch never touches the stored combination. -/
theorem dispatchCard_puzzle_correctCode (inp : TickInput) (s : SysState)
    (hm : s.currentMode = Mode.PUZZLE) :
    (dispatchCard inp s).1.correctCode = s.correctCode := by
  cases hr : inp.readResult <;> simp [dispatchCard, hm, hr]

/-- The reader poll never emits the puzzle outcome events or the relay
actuation: those are produced only by `puzzleLoop`'s evaluation. -/
theorem handleReader_no_outcome_events (inp : TickInput) (s : SysState) :
    Event.animateSuccess ∉ (handleReader inp s).2 ∧
    Event.animateFailure ∉ (handleReader inp s).2 ∧
    Event.triggerRelay ∉ (handleReader inp s).2 ∧
    Event.comboFanfare ∉ (handleReader inp s).2 ∧
    Event.animateModeChange Mode.PUZZLE ∉ (handleReader inp s).2 := by
  rcases handleReader_cases inp s with h | h | h | h | h | h <;> rw [h] <;>
    cases hm : s.currentMode <;> cases hr : inp.readResult <;>
    simp [dispatchCard, hm, hr] <;> split <;> simp

/-- `entriesMatch` is the element-wise comparison of the first
`codeLength` entries. -/
theorem entriesMatch_iff (s : SysState) :
    entriesMatch s = true ↔
      ∀ i, i < s.codeLength → s.enteredValues.getD i 0 = s.correctCode.getD i 0 := by
  simp [entriesMatch, List.all_eq_true, List.mem_range]

/-- `puzzleLoop` when the accumulator has reached the code length. -/
theorem puzzleLoop_complete (inp : TickInput) (s : SysState)
    (h : (handleReader inp s).1.currentIndex ≥ (handleReader inp s).1.codeLength) :
    puzzleLoop inp s =
      if entriesMatch (handleReader inp s).1 then
        ({ (handleReader inp s).1 with currentIndex := 0 },
         (handleReader inp s).2 ++
           [Event.animateSuccess, Event.triggerRelay, Event.clearStrip])
      else
        ({ (handleReader inp s).1 with currentIndex := 0 },
         (handleReader inp s).2 ++ [Event.animateFailure, Event.clearStrip]) := by
  simp only [puzzleLoop]
  rw [if_pos h]

/-- `puzzleLoop` when the accumulator is still short. -/
theorem puzzleLoop_incomplete (inp : TickInput) (s : SysState)
    (h : ¬ (handleReader inp s).1.currentIndex ≥ (handleReader inp s).1.codeLength) :
    puzzleLoop inp s = handleReader inp s := by
  simp only [puzzleLoop]
  rw [if_neg h]

/-- `setComboLoop` when the accumulator has reached the code length. -/
theorem setComboLoop_complete (inp : TickInput) (s : SysState)
    (h : (handleReader inp s).1.currentIndex ≥ (handleReader inp s).1.codeLength) :
    setComboLoop inp s =
      ({ saveComboToEEPROM (handleReader inp s).1 with
           currentIndex := 0, currentMode := Mode.PUZZLE },
       (handleReader inp s).2 ++
         [Event.comboFanfare, Event.toneCall 1047 400, Event.clearStrip,
          Event.animateModeChange Mode.PUZZLE]) := by
  simp only [setComboLoop]
  rw [if_pos h]

/-- `setComboLoop` when the accumulator is still short. -/
theorem setComboLoop_incomplete (inp : TickInput) (s : SysState)
    (h : ¬ (handleReader inp s).1.currentIndex ≥ (handleReader inp s).1.codeLength) :
    setComboLoop inp s = handleReader inp s := by
  simp only [setComboLoop]
  rw [if_neg h]

/-- Iterated `handleReader` over a list of tick inputs. -/
def runReader (inps : List TickInput) (s : SysState) : SysState :=
  inps.foldl (fun st inp => (handleReader inp st).1) s

/-- Number of new-card events dispatched over a run of reader polls. -/
def dispatchCount (inps : List TickInput) (s : SysState) : Nat :=
  match inps with
  | [] => 0
  | inp :: rest =>
    (if readerDispatched inp s then 1 else 0) + dispatchCount rest (handleReader inp s).1

/-- While a card rests on the reader (or the poll is rate-limited), a
poll dispatches nothing and leaves the accumulator alone. -/
theorem handleReader_still_present (inp : TickInput) (s : SysState)
    (hp : inp.cardPresent = true) (hf : s.cardCurrentlyPresent = true) :
    (handleReader inp s).2 = [] ∧
    (handleReader inp s).1.cardCurrentlyPresent = true ∧
    (handleReader inp s).1.currentIndex = s.currentIndex ∧
    (handleReader inp s).1.enteredValues = s.enteredValues := by
  unfold handleReader
  by_cases hg : inp.millisNow - s.lastCardCheckTime < 20 <;> simp [hg, hp, hf]

/-- A poll dispatches a new-card event exactly when it is not
rate-limited, a card is reported, no card was tracked as present, and the
UID differs from the tracked one. -/
theorem readerDispatched_iff (inp : TickInput) (s : SysState) :
    readerDispatched inp s = true ↔
      (¬ inp.millisNow - s.lastCardCheckTime < 20 ∧ inp.cardPresent = true ∧
       s.cardCurrentlyPresent = false ∧ compareUID inp.cardUID s.lastUID = false) := by
  unfold readerDispatched handleReader
  by_cases hg : inp.millisNow - s.lastCardCheckTime < 20 <;>
    by_cases hp : inp.cardPresent = true <;>
    by_cases hf : s.cardCurrentlyPresent = true <;>
    by_cases hu : compareUID inp.cardUID s.lastUID = true <;>
    by_cases hl : inp.cardUID.length ≤ 10 <;>
    simp [hg, hp, hf, hu, hl, List.isEmpty_eq_true, dispatchCard_events_ne_nil]

/-- After a non-rate-limited poll that reports a card, the card is
tracked as present. -/
theorem handleReader_present_flag (inp : TickInput) (s : SysState)
    (hg : ¬ inp.millisNow - s.lastCardCheckTime < 20) (hp : inp.cardPresent = true) :
    (handleReader inp s).1.cardCurrentlyPresent = true := by
  unfold handleReader
  by_cases hf : s.cardCurrentlyPresent = true <;>
    by_cases hu : compareUID inp.cardUID s.lastUID = true <;>
    by_cases hl : inp.cardUID.length ≤ 10 <;>
    simp [hg, hp, hf, hu, hl, dispatchCard_present]

/-- Over any run of polls during which a card keeps being reported
present, a reader that already tracks a present card dispatches no event
and never touches the accumulator. -/
theorem dispatchCount_zero_of_present (inps : List TickInput) :
    ∀ s : SysState, (∀ i ∈ inps, i.cardPresent = true) →
      s.cardCurrentlyPresent = true →
      dispatchCount inps s = 0 ∧
      (runReader inps s).currentIndex = s.currentIndex ∧
      (runReader inps s).enteredValues = s.enteredValues := by
  induction inps with
  | nil => intro s _ _; exact ⟨rfl, rfl, rfl⟩
  | cons a t ih =>
    intro s hall hf
    have hp : a.cardPresent = true := hall a (by simp)
    have h1 := handleReader_still_present a s hp hf
    have ih2 := ih (handleReader a s).1 (fun i hi => hall i (by simp [hi])) h1.2.1
    refine ⟨?_, ?_, ?_⟩
    · simp [dispatchCount, readerDispatched, h1.1, ih2.1]
    · show (runReader t (handleReader a s).1).currentIndex = s.currentIndex
      rw [ih2.2.1, h1.2.2.1]
    · show (runReader t (handleReader a s).1).enteredValues = s.enteredValues
      rw [ih2.2.2, h1.2.2.2]

/-- A failed read during a `PUZZLE` dispatch: accumulator untouched,
failure presentation emitted, card now tracked as present. -/
theorem handleReader_puzzle_read_fail (inp : TickInput) (s : SysState)
    (hm : s.currentMode = Mode.PUZZLE)
    (hg : ¬ inp.millisNow - s.lastCardCheckTime < 20) (hp : inp.cardPresent = true)
    (hf : s.cardCurrentlyPresent = false)
    (hu : compareUID inp.cardUID s.lastUID = false)
    (hr : inp.readResult = none) :
    (handleReader inp s).1.currentIndex = s.currentIndex ∧
    (handleReader inp s).1.enteredValues = s.enteredValues ∧
    (handleReader inp s).1.cardCurrentlyPresent = true ∧
    Event.animateWriteFailure ∈ (handleReader inp s).2 := by
  unfold handleReader
  by_cases hl : inp.cardUID.length ≤ 10 <;>
    simp [hg, hp, hf, hu, hl, dispatchCard, hm, hr]

/-- Case analysis on the gesture check: latch a press start, or the
release-edge effect of the classified duration, or nothing. -/
theorem checkButtonPress_cases (inp : TickInput) (s : SysState) :
    checkButtonPress inp s = (s, []) ∨
    checkButtonPress inp s = ({ s with wasPressed := true, pressStartTime := inp.millisNow }, []) ∨
    checkButtonPress inp s = ({ s with wasPressed := false }, []) ∨
    checkButtonPress inp s =
      ({ s with currentMode := Mode.SET_COMBO, currentIndex := 0, wasPressed := false },
       [Event.animateModeChange Mode.SET_COMBO, Event.beepModeChange, Event.clearStrip]) ∨
    checkButtonPress inp s =
      ({ s with currentMode := Mode.PROGRAM, selectedValue := 0, wasPressed := false },
       [Event.animateModeChange Mode.PROGRAM, Event.beepModeChange,
        Event.showNumber 0, Event.triggerRelay]) := by
  unfold checkButtonPress
  by_cases hb : inp.buttonLow = true <;>
    by_cases hw : s.wasPressed = true <;>
    by_cases h4 : 4000 ≤ inp.millisNow - s.pressStartTime <;>
    by_cases h1 : 100 ≤ inp.millisNow - s.pressStartTime ∧
      inp.millisNow - s.pressStartTime < 4000 <;>
    rcases hm : s.currentMode <;>
    simp [hb, hw, h4, h1, hm]

/-- On a release edge, `checkButtonPress` acts exactly as the classified
gesture's effect. -/
theorem checkButtonPress_eq_gestureStep (inp : TickInput) (s : SysState)
    (hl : inp.buttonLow = false) (hw : s.wasPressed = true) :
    checkButtonPress inp s =
      gestureStep (classifyPress (inp.millisNow - s.pressStartTime)) s := by
  by_cases h4 : 4000 ≤ inp.millisNow - s.pressStartTime
  · simp [checkButtonPress, gestureStep, classifyPress, hl, hw, h4]
  · by_cases h1 : 100 ≤ inp.millisNow - s.pressStartTime
    · have h2 : inp.millisNow - s.pressStartTime < 4000 := by omega
      simp [checkButtonPress, gestureStep, classifyPress, hl, hw, h4, h1, h2]
    · simp [checkButtonPress, gestureStep, classifyPress, hl, hw, h4, h1]

/-- Reading back the block of code values written by `saveComboToEEPROM`. -/
theorem range_foldl_eepromWrite (e : Nat → Nat) (code : List Nat) (n a : Nat) :
    ((List.range n).foldl
        (fun m i => eepromWrite m (EEPROM_CODE_ADDR + i) (code.getD i 0)) e) a =
      if EEPROM_CODE_ADDR ≤ a ∧ a < EEPROM_CODE_ADDR + n then
        code.getD (a - EEPROM_CODE_ADDR) 0
      else e a := by
  induction n with
  | zero => rw [List.range_zero, List.foldl_nil, if_neg (by omega)]
  | succ k ih =>
    rw [List.range_succ, List.foldl_append, List.foldl_cons, List.foldl_nil]
    simp only [eepromWrite, EEPROM_CODE_ADDR] at ih ⊢
    by_cases hk : a = 2 + k
    · rw [if_pos hk]
      have : 2 ≤ a ∧ a < 2 + (k + 1) := by omega
      rw [if_pos this]
      have : a - 2 = k := by omega
      rw [this]
    · rw [if_neg hk, ih]
      by_cases h2 : 2 ≤ a ∧ a < 2 + k
      · rw [if_pos h2, if_pos (by omega)]
      · rw [if_neg h2, if_neg (by omega)]

/-- After `saveComboToEEPROM`, the persisted record is exactly the magic
sentinel, the code length and the first `codeLength` code values; all
other cells are untouched; the in-memory state is otherwise unchanged. -/
theorem saveCombo_spec (s : SysState) :
    (saveComboToEEPROM s).eeprom EEPROM_MAGIC_ADDR = EEPROM_MAGIC_VALUE ∧
    (saveComboToEEPROM s).eeprom EEPROM_LENGTH_ADDR = s.codeLength ∧
    (∀ i, i < s.codeLength →
      (saveComboToEEPROM s).eeprom (EEPROM_CODE_ADDR + i) = s.correctCode.getD i 0) ∧
    (saveComboToEEPROM s).currentMode = s.currentMode ∧
    (saveComboToEEPROM s).codeLength = s.codeLength ∧
    (saveComboToEEPROM s).correctCode = s.correctCode ∧
    (saveComboToEEPROM s).enteredValues = s.enteredValues ∧
    (saveComboToEEPROM s).currentIndex = s.currentIndex := by
  refine ⟨?_, ?_, ?_, rfl, rfl, rfl, rfl, rfl⟩
  · show ((List.range s.codeLength).foldl
        (fun m i => eepromWrite m (EEPROM_CODE_ADDR + i) (s.correctCode.getD i 0))
        (eepromWrite (eepromWrite s.eeprom EEPROM_MAGIC_ADDR EEPROM_MAGIC_VALUE)
          EEPROM_LENGTH_ADDR s.codeLength)) EEPROM_MAGIC_ADDR = EEPROM_MAGIC_VALUE
    rw [range_foldl_eepromWrite]
    simp [EEPROM_CODE_ADDR, EEPROM_MAGIC_ADDR, EEPROM_LENGTH_ADDR, eepromWrite]
  · show ((List.range s.codeLength).foldl
        (fun m i => eepromWrite m (EEPROM_CODE_ADDR + i) (s.correctCode.getD i 0))
        (eepromWrite (eepromWrite s.eeprom EEPROM_MAGIC_ADDR EEPROM_MAGIC_VALUE)
          EEPROM_LENGTH_ADDR s.codeLength)) EEPROM_LENGTH_ADDR = s.codeLength
    rw [range_foldl_eepromWrite]
    simp [EEPROM_CODE_ADDR, EEPROM_LENGTH_ADDR, eepromWrite]
  · intro i hi
    show ((List.range s.codeLength).foldl
        (fun m i => eepromWrite m (EEPROM_CODE_ADDR + i) (s.correctCode.getD i 0))
        (eepromWrite (eepromWrite s.eeprom EEPROM_MAGIC_ADDR EEPROM_MAGIC_VALUE)
          EEPROM_LENGTH_ADDR s.codeLength)) (EEPROM_CODE_ADDR + i) = s.correctCode.getD i 0
    rw [range_foldl_eepromWrite]
    rw [if_pos (by simp [EEPROM_CODE_ADDR]; omega)]
    simp [EEPROM_CODE_ADDR]

/-- Updating a list at a block of indices preserves its length. -/
theorem foldl_set_length (idxs : List Nat) (f : Nat → Nat) (l : List Nat) :
    (idxs.foldl (fun c i => c.set i (f i)) l).length = l.length := by
  induction idxs generalizing l with
  | nil => rfl
  | cons a t ih => rw [List.foldl_cons, ih, List.length_set]

/-- In `PROGRAM` mode a reader poll leaves the accumulator and both
arrays untouched. -/
theorem handleReader_program (inp : TickInput) (s : SysState)
    (hm : s.currentMode = Mode.PROGRAM) :
    (handleReader inp s).1.currentIndex = s.currentIndex ∧
    (handleReader inp s).1.enteredValues = s.enteredValues ∧
    (handleReader inp s).1.correctCode = s.correctCode := by
  rcases handleReader_cases inp s with h | h | h | h | h | h <;> rw [h]
  case _ => exact ⟨rfl, rfl, rfl⟩
  case _ => exact ⟨rfl, rfl, rfl⟩
  case _ => exact ⟨rfl, rfl, rfl⟩
  case _ => exact ⟨rfl, rfl, rfl⟩
  case _ =>
    rw [dispatchCard_program_id inp
      { s with lastCardCheckTime := inp.millisNow, cardCurrentlyPresent := true,
               lastUID := inp.cardUID } hm]
    exact ⟨rfl, rfl, rfl⟩
  case _ =>
    rw [dispatchCard_program_id inp
      { s with lastCardCheckTime := inp.millisNow, cardCurrentlyPresent := true } hm]
    exact ⟨rfl, rfl, rfl⟩

/-- When a `PUZZLE` or `PROGRAM` tick runs, the stored combination is
untouched by the reader poll. -/
theorem handleReader_correctCode_stable (inp : TickInput) (s : SysState)
    (hm : s.currentMode ≠ Mode.SET_COMBO) :
    (handleReader inp s).1.correctCode = s.correctCode := by
  rcases hmode : s.currentMode
  case SET_COMBO => exact absurd hmode hm
  case PROGRAM => exact (handleReader_program inp s hmode).2.2
  case PUZZLE =>
    rcases handleReader_cases inp s with h | h | h | h | h | h <;> rw [h] <;>
      first
        | rfl
        | exact dispatchCard_puzzle_correctCode inp _ hmode

theorem checkButtonPress_inv (inp : TickInput) (s : SysState) (h : Inv s) :
    Inv (checkButtonPress inp s).1 := by
  obtain ⟨h1, h2, h3, h4, h5⟩ := h
  rcases checkButtonPress_cases inp s with hc | hc | hc | hc | hc <;> rw [hc] <;>
    exact ⟨by first | exact h1 | exact h2, h2, h3, h4, h5⟩

theorem puzzleLoop_inv (inp : TickInput) (s : SysState) (h : Inv s) :
    Inv (puzzleLoop inp s).1 := by
  obtain ⟨h1, h2, h3, h4, h5⟩ := h
  obtain ⟨-, hlen, -, hcc, hev, hle, -, -, -, -, -⟩ := handleReader_fields inp s
  by_cases hc : (handleReader inp s).1.currentIndex ≥ (handleReader inp s).1.codeLength
  · rw [puzzleLoop_complete inp s hc]
    have hinv : Inv { (handleReader inp s).1 with currentIndex := 0 } := by
      refine ⟨?_, ?_, ?_, ?_, ?_⟩
      · show 0 < (handleReader inp s).1.codeLength
        omega
      · show 1 ≤ (handleReader inp s).1.codeLength
        omega
      · show (handleReader inp s).1.codeLength ≤ MAX_CARDS
        rw [hlen]; exact h3
      · show (handleReader inp s).1.correctCode.length = MAX_CARDS
        rw [hcc]; exact h4
      · show (handleReader inp s).1.enteredValues.length = MAX_CARDS
        rw [hev]; exact h5
    split <;> exact hinv
  · rw [puzzleLoop_incomplete inp s hc]
    exact ⟨by omega, by omega, by rw [hlen]; exact h3, by rw [hcc]; exact h4,
      by rw [hev]; exact h5⟩

theorem setComboLoop_inv (inp : TickInput) (s : SysState) (h : Inv s) :
    Inv (setComboLoop inp s).1 := by
  obtain ⟨h1, h2, h3, h4, h5⟩ := h
  obtain ⟨-, hlen, -, hcc, hev, hle, -, -, -, -, -⟩ := handleReader_fields inp s
  by_cases hc : (handleReader inp s).1.currentIndex ≥ (handleReader inp s).1.codeLength
  · rw [setComboLoop_complete inp s hc]
    refine ⟨?_, ?_, ?_, ?_, ?_⟩
    · show 0 < (handleReader inp s).1.codeLength
      omega
    · show 1 ≤ (handleReader inp s).1.codeLength
      omega
    · show (handleReader inp s).1.codeLength ≤ MAX_CARDS
      rw [hlen]; exact h3
    · show (handleReader inp s).1.correctCode.length = MAX_CARDS
      rw [hcc]; exact h4
    · show (handleReader inp s).1.enteredValues.length = MAX_CARDS
      rw [hev]; exact h5
  · rw [setComboLoop_incomplete inp s hc]
    exact ⟨by omega, by omega, by rw [hlen]; exact h3, by rw [hcc]; exact h4,
      by rw [hev]; exact h5⟩

theorem programmingLoop_inv (inp : TickInput) (s : SysState)
    (hm : s.currentMode = Mode.PROGRAM) (h : Inv s) :
    Inv (programmingLoop inp s).1 := by
  obtain ⟨h1, h2, h3, h4, h5⟩ := h
  have key : ∀ t : SysState, t.currentMode = Mode.PROGRAM → t.currentIndex = s.currentIndex →
      t.codeLength = s.codeLength → t.correctCode = s.correctCode →
      t.enteredValues = s.enteredValues → Inv (handleReader inp t).1 := by
    intro t htm hti htl htc hte
    obtain ⟨-, hlen, -, hcc, hev, -, -, -, -, -, -⟩ := handleReader_fields inp t
    obtain ⟨hi, he, hc⟩ := handleReader_program inp t htm
    exact ⟨by rw [hi, hti, hlen, htl]; omega, by rw [hlen, htl]; omega,
      by rw [hlen, htl]; omega, by rw [hc, htc, h4], by rw [he, hte, h5]⟩
  unfold programmingLoop
  by_cases hb : inp.buttonLow = true <;>
    by_cases hpb : s.progButtonWasPressed = true <;>
    simp only [hb, hpb, Bool.not_true, Bool.not_false, if_true, if_false,
      Bool.false_eq_true, ite_true, ite_false] <;>
    exact key _ hm rfl rfl rfl rfl

theorem loopTick_inv (inp : TickInput) (s : SysState) (h : Inv s) :
    Inv (loopTick inp s).1 := by
  have hb := checkButtonPress_inv inp s h
  unfold loopTick
  rcases hm : (checkButtonPress inp s).1.currentMode <;> simp only [hm]
  case PUZZLE => exact puzzleLoop_inv inp _ hb
  case PROGRAM => exact programmingLoop_inv inp _ hm hb
  case SET_COMBO => exact setComboLoop_inv inp _ hb

theorem startup_inv (e : Nat → Nat) : Inv (startupState e) := by
  unfold startupState loadComboFromEEPROM
  by_cases hmag : (initState e).eeprom EEPROM_MAGIC_ADDR = EEPROM_MAGIC_VALUE
  · rw [if_pos hmag]
    by_cases hlen : 0 < (initState e).eeprom EEPROM_LENGTH_ADDR ∧
        (initState e).eeprom EEPROM_LENGTH_ADDR ≤ MAX_CARDS
    · rw [if_pos hlen]
      refine ⟨hlen.1, hlen.1, hlen.2, ?_, by rfl⟩
      show ((List.range _).foldl _ (initState e).correctCode).length = MAX_CARDS
      rw [foldl_set_length]
      rfl
    · rw [if_neg hlen]
      exact ⟨by show (0:Nat) < 4; decide, by show (1:Nat) ≤ 4; decide,
        by show (4:Nat) ≤ MAX_CARDS; decide, by rfl, by rfl⟩
  · rw [if_neg hmag]
    exact ⟨by show (0:Nat) < 4; decide, by show (1:Nat) ≤ 4; decide,
      by show (4:Nat) ≤ MAX_CARDS; decide, by rfl, by rfl⟩

/-- Every state reachable by the main loop satisfies the invariant. -/
theorem inv_reachable (e : Nat → Nat) (s : SysState) (h : Reachable e s) : Inv s := by
  induction h with
  | init => exact startup_inv e
  | step inp _ ih => exact loopTick_inv inp _ ih

/-- C3: a completed press of duration `d` is classified as no-op when
`d < 100`, short-press when `100 <= d < 4000`, long-hold when `d >= 4000`;
`checkButtonPress` follows exactly this classification, dispatches
effects only on the release edge (a held button changes nothing and emits
nothing; a sub-100ms release only clears the latch), and any mode change
it makes requires a release of at least 100ms. -/
theorem c3_gesture_classification :
    (∀ d : Nat, d < 100 → classifyPress d = Gesture.NoOp) ∧
    (∀ d : Nat, 100 ≤ d → d < 4000 → classifyPress d = Gesture.ShortPress) ∧
    (∀ d : Nat, 4000 ≤ d → classifyPress d = Gesture.LongHold) ∧
    (∀ (inp : TickInput) (s : SysState), inp.buttonLow = false → s.wasPressed = true →
      checkButtonPress inp s =
        gestureStep (classifyPress (inp.millisNow - s.pressStartTime)) s) ∧
    (∀ (inp : TickInput) (s : SysState), inp.buttonLow = true →
      (checkButtonPress inp s).1.currentMode = s.currentMode ∧
      (checkButtonPress inp s).1.currentIndex = s.currentIndex ∧
      (checkButtonPress inp s).1.selectedValue = s.selectedValue ∧
      (checkButtonPress inp s).2 = []) ∧
    (∀ (inp : TickInput) (s : SysState), inp.buttonLow = false → s.wasPressed = true →
      inp.millisNow - s.pressStartTime < 100 →
      (checkButtonPress inp s).1 = { s with wasPressed := false } ∧
      (checkButtonPress inp s).2 = []) ∧
    (∀ (inp : TickInput) (s : SysState),
      (checkButtonPress inp s).1.currentMode ≠ s.currentMode →
      inp.buttonLow = false ∧ s.wasPressed = true ∧
      100 ≤ inp.millisNow - s.pressStartTime) := by
  refine ⟨?_, ?_, ?_, ?_, ?_, ?_, ?_⟩
  · intro d hd
    rw [classifyPress, if_neg (by omega), if_neg (by omega)]
  · intro d h1 h2
    rw [classifyPress, if_neg (by omega), if_pos (by omega)]
  · intro d h4
    rw [classifyPress, if_pos h4]
  · intro inp s hl hw
    exact checkButtonPress_eq_gestureStep inp s hl hw
  · intro inp s hb
    by_cases hw : s.wasPressed = true <;> simp [checkButtonPress, hb, hw]
  · intro inp s hl hw hd
    rw [checkButtonPress_eq_gestureStep inp s hl hw]
    have : classifyPress (inp.millisNow - s.pressStartTime) = Gesture.NoOp := by
      rw [classifyPress, if_neg (by omega), if_neg (by omega)]
    rw [this]
    exact ⟨rfl, rfl⟩
  · intro inp s hch
    by_cases hb : inp.buttonLow = true
    · exfalso
      by_cases hw : s.wasPressed = true <;> simp [checkButtonPress, hb, hw] at hch
    · by_cases hw : s.wasPressed = true
      · refine ⟨by simpa using hb, hw, ?_⟩
        by_contra hlt
        rw [checkButtonPress_eq_gestureStep inp s (by simpa using hb) hw] at hch
        have : classifyPress (inp.millisNow - s.pressStartTime) = Gesture.NoOp := by
          rw [classifyPress, if_neg (by omega), if_neg (by omega)]
        rw [this] at hch
        exact hch rfl
      · exfalso
        simp [checkButtonPress, hb, hw] at hch

/-- C3 witness at concrete durations and a concrete held-button tick. -/
theorem c3_gesture_classification_witness :
    classifyPress 99 = Gesture.NoOp ∧ classifyPress 100 = Gesture.ShortPress ∧
    classifyPress 3999 = Gesture.ShortPress ∧ classifyPress 4000 = Gesture.LongHold ∧
    (checkButtonPress (holdTick 5000) (initState zeroEeprom)).1.currentMode =
      (initState zeroEeprom).currentMode :=
  ⟨c3_gesture_classification.1 99 (by decide),
   c3_gesture_classification.2.1 100 (by decide) (by decide),
   c3_gesture_classification.2.1 3999 (by decide) (by decide),
   c3_gesture_classification.2.2.1 4000 (by decide),
   (c3_gesture_classification.2.2.2.2.1 (holdTick 5000) (initState zeroEeprom) rfl).1⟩

/-- C6: a short press (100ms..4000ms) acts only from `Puzzle` mode: it
switches to `Program`, resets the selection to 0, plays the mode-change
presentation and fires the relay (bypass unlock); from `Program` or
`SetCombo` it only clears the press latch and changes nothing else. -/
theorem c6_short_press (inp : TickInput) (s : SysState)
    (hl : inp.buttonLow = false) (hw : s.wasPressed = true)
    (h1 : 100 ≤ inp.millisNow - s.pressStartTime)
    (h2 : inp.millisNow - s.pressStartTime < 4000) :
    (s.currentMode = Mode.PUZZLE →
      (checkButtonPress inp s).1.currentMode = Mode.PROGRAM ∧
      (checkButtonPress inp s).1.selectedValue = 0 ∧
      (checkButtonPress inp s).1.currentIndex = s.currentIndex ∧
      Event.animateModeChange Mode.PROGRAM ∈ (checkButtonPress inp s).2 ∧
      Event.triggerRelay ∈ (checkButtonPress inp s).2) ∧
    (s.currentMode ≠ Mode.PUZZLE →
      (checkButtonPress inp s).1 = { s with wasPressed := false } ∧
      (checkButtonPress inp s).2 = []) := by
  rw [checkButtonPress_eq_gestureStep inp s hl hw]
  have hc : classifyPress (inp.millisNow - s.pressStartTime) = Gesture.ShortPress := by
    rw [classifyPress, if_neg (by omega), if_pos (by omega)]
  rw [hc]
  constructor
  · intro hm
    simp [gestureStep, hm]
  · intro hm
    simp [gestureStep, hm]

/-- C6 witness: a concrete 1000ms release from `Puzzle` enters `Program`
with selection 0 and fires the relay; the same release from `SetCombo`
changes nothing. -/
theorem c6_short_press_witness :
    (checkButtonPress (releaseTick 1000) sPzPressed).1.currentMode = Mode.PROGRAM ∧
    (checkButtonPress (releaseTick 1000) sPzPressed).1.selectedValue = 0 ∧
    Event.triggerRelay ∈ (checkButtonPress (releaseTick 1000) sPzPressed).2 ∧
    (checkButtonPress (releaseTick 1000) sScPressed).2 = [] := by
  have h1 := c6_short_press (releaseTick 1000) sPzPressed rfl rfl (by decide) (by decide)
  have h2 := c6_short_press (releaseTick 1000) sScPressed rfl rfl (by decide) (by decide)
  exact ⟨(h1.1 rfl).1, (h1.1 rfl).2.1, (h1.1 rfl).2.2.2.2, (h2.2 (by decide)).2⟩

/-- C7: a long hold (>= 4000ms) from any mode other than `SetCombo`
switches to `SetCombo`, clears the accumulator and plays the mode-change
presentation; from `SetCombo` itself it only clears the press latch:
no transition, no reset, no presentation. -/
theorem c7_long_hold (inp : TickInput) (s : SysState)
    (hl : inp.buttonLow = false) (hw : s.wasPressed = true)
    (h4 : 4000 ≤ inp.millisNow - s.pressStartTime) :
    (s.currentMode ≠ Mode.SET_COMBO →
      (checkButtonPress inp s).1.currentMode = Mode.SET_COMBO ∧
      (checkButtonPress inp s).1.currentIndex = 0 ∧
      Event.animateModeChange Mode.SET_COMBO ∈ (checkButtonPress inp s).2) ∧
    (s.currentMode = Mode.SET_COMBO →
      (checkButtonPress inp s).1 = { s with wasPressed := false } ∧
      (checkButtonPress inp s).2 = []) := by
  rw [checkButtonPress_eq_gestureStep inp s hl hw]
  have hc : classifyPress (inp.millisNow - s.pressStartTime) = Gesture.LongHold := by
    rw [classifyPress, if_pos h4]
  rw [hc]
  constructor
  · intro hm
    simp [gestureStep, hm]
  · intro hm
    simp [gestureStep, hm]

/-- C7 witness: a concrete 5000ms release from `Puzzle` enters `SetCombo`
with the accumulator cleared; the same release while already in
`SetCombo` emits nothing. -/
theorem c7_long_hold_witness :
    (checkButtonPress (releaseTick 5000) sPzPressedMid).1.currentMode = Mode.SET_COMBO ∧
    (checkButtonPress (releaseTick 5000) sPzPressedMid).1.currentIndex = 0 ∧
    (checkButtonPress (releaseTick 5000) sScPressed).2 = [] := by
  have h1 := c7_long_hold (releaseTick 5000) sPzPressedMid rfl rfl (by decide)
  have h2 := c7_long_hold (releaseTick 5000) sScPressed rfl rfl (by decide)
  exact ⟨(h1.1 (by decide)).1, (h1.1 (by decide)).2.1, (h2.2 rfl).2⟩

/-- Reading back an index written by the block update
`for i in range(n): l[i] := f i` (indices below `n`, arrays long enough). -/
theorem foldl_set_getD (f : Nat → Nat) (l : List Nat) :
    ∀ n, n ≤ l.length → ∀ i, i < n →
      ((List.range n).foldl (fun c j => c.set j (f j)) l).getD i 0 = f i := by
  intro n
  induction n with
  | zero => intro _ i hi; omega
  | succ k ih =>
    intro hn i hi
    rw [List.range_succ, List.foldl_append, List.foldl_cons, List.foldl_nil]
    by_cases hik : i = k
    · subst hik
      have hlen : i < ((List.range i).foldl (fun c j => c.set j (f j)) l).length := by
        rw [foldl_set_length]
        omega
      rw [List.getD_eq_getElem?_getD, List.getElem?_set_self hlen]
      rfl
    · rw [List.getD_eq_getElem?_getD, List.getElem?_set_ne (by omega),
        ← List.getD_eq_getElem?_getD]
      exact ih (by omega) i (by omega)

/-- C1: in `Puzzle` mode, whenever the accumulator reaches the stored
combination's length after the tick's reader poll, the evaluation emits
the success presentation and the relay actuation exactly when every
position of the entered sequence equals the corresponding position of the
combination, and the failure presentation exactly otherwise; the
accumulator index is reset to 0 in both cases and the mode is unchanged. -/
theorem c1_puzzle_evaluation (inp : TickInput) (s : SysState)
    (h : (handleReader inp s).1.currentIndex ≥ (handleReader inp s).1.codeLength) :
    (puzzleLoop inp s).1.currentIndex = 0 ∧
    (puzzleLoop inp s).1.currentMode = s.currentMode ∧
    (Event.animateSuccess ∈ (puzzleLoop inp s).2 ↔
      ∀ i, i < (handleReader inp s).1.codeLength →
        (handleReader inp s).1.enteredValues.getD i 0 =
          (handleReader inp s).1.correctCode.getD i 0) ∧
    (Event.triggerRelay ∈ (puzzleLoop inp s).2 ↔
      ∀ i, i < (handleReader inp s).1.codeLength →
        (handleReader inp s).1.enteredValues.getD i 0 =
          (handleReader inp s).1.correctCode.getD i 0) ∧
    (Event.animateFailure ∈ (puzzleLoop inp s).2 ↔
      ¬ ∀ i, i < (handleReader inp s).1.codeLength →
        (handleReader inp s).1.enteredValues.getD i 0 =
          (handleReader inp s).1.correctCode.getD i 0) := by
  have hmode := (handleReader_fields inp s).1
  obtain ⟨hs, hf, hr, -, -⟩ := handleReader_no_outcome_events inp s
  rw [puzzleLoop_complete inp s h]
  by_cases he : entriesMatch (handleReader inp s).1 = true
  · rw [if_pos he]
    rw [entriesMatch_iff] at he
    refine ⟨rfl, hmode, iff_of_true (by simp) he, iff_of_true (by simp) he,
      iff_of_false ?_ (by simpa using he)⟩
    simp [List.mem_append, hf]
  · rw [if_neg he]
    rw [entriesMatch_iff] at he
    refine ⟨rfl, hmode, iff_of_false ?_ he, iff_of_false ?_ he,
      iff_of_true (by simp) he⟩
    · simp [List.mem_append, hs]
    · simp [List.mem_append, hr]

/-- C1 witness: a fresh length-4 puzzle with three entries `1,2,3` and a
matching fourth card `4` succeeds with the index reset; with a mismatched
fourth card `9` it fails with the index reset. -/
theorem c1_puzzle_evaluation_witness :
    (puzzleLoop (cardTick 100 [7] (some 4)) sPzThree).1.currentIndex = 0 ∧
    Event.animateSuccess ∈ (puzzleLoop (cardTick 100 [7] (some 4)) sPzThree).2 ∧
    Event.animateFailure ∈ (puzzleLoop (cardTick 100 [7] (some 9)) sPzThree).2 ∧
    (puzzleLoop (cardTick 100 [7] (some 9)) sPzThree).1.currentIndex = 0 := by
  have h1 := c1_puzzle_evaluation (cardTick 100 [7] (some 4)) sPzThree (by decide)
  have h2 := c1_puzzle_evaluation (cardTick 100 [7] (some 9)) sPzThree (by decide)
  exact ⟨h1.1, h1.2.2.1.mpr (by decide), h2.2.2.2.2.mpr (by decide), h2.1⟩

/-- C5: the startup load accepts a persisted record only when the magic
byte matches the sentinel and the length byte is in `1..10`; any invalid
record (bad magic, length 0, length above 10) leaves the state completely
unchanged — in particular the freshly-booted state keeps the compiled-in
default `[1,2,3,4]` of length 4 — and the load never writes to storage. -/
theorem c5_load_validation (s : SysState) (e : Nat → Nat) :
    ((s.eeprom EEPROM_MAGIC_ADDR ≠ EEPROM_MAGIC_VALUE ∨
      s.eeprom EEPROM_LENGTH_ADDR = 0 ∨ MAX_CARDS < s.eeprom EEPROM_LENGTH_ADDR) →
      loadComboFromEEPROM s = s) ∧
    (loadComboFromEEPROM s).eeprom = s.eeprom ∧
    (s.eeprom EEPROM_MAGIC_ADDR = EEPROM_MAGIC_VALUE →
      0 < s.eeprom EEPROM_LENGTH_ADDR → s.eeprom EEPROM_LENGTH_ADDR ≤ MAX_CARDS →
      s.correctCode.length = MAX_CARDS →
      (loadComboFromEEPROM s).codeLength = s.eeprom EEPROM_LENGTH_ADDR ∧
      ∀ i, i < s.eeprom EEPROM_LENGTH_ADDR →
        (loadComboFromEEPROM s).correctCode.getD i 0 = s.eeprom (EEPROM_CODE_ADDR + i)) ∧
    ((e EEPROM_MAGIC_ADDR ≠ EEPROM_MAGIC_VALUE ∨
      e EEPROM_LENGTH_ADDR = 0 ∨ MAX_CARDS < e EEPROM_LENGTH_ADDR) →
      (startupState e).correctCode = [1, 2, 3, 4, 0, 0, 0, 0, 0, 0] ∧
      (startupState e).codeLength = 4 ∧ (startupState e).eeprom = e) := by
  have hload : ∀ t : SysState,
      (t.eeprom EEPROM_MAGIC_ADDR ≠ EEPROM_MAGIC_VALUE ∨
       t.eeprom EEPROM_LENGTH_ADDR = 0 ∨ MAX_CARDS < t.eeprom EEPROM_LENGTH_ADDR) →
      loadComboFromEEPROM t = t := by
    intro t ht
    unfold loadComboFromEEPROM
    rcases ht with ht | ht | ht
    · rw [if_neg ht]
    · by_cases hmag : t.eeprom EEPROM_MAGIC_ADDR = EEPROM_MAGIC_VALUE
      · rw [if_pos hmag, if_neg (by omega)]
      · rw [if_neg hmag]
    · by_cases hmag : t.eeprom EEPROM_MAGIC_ADDR = EEPROM_MAGIC_VALUE
      · rw [if_pos hmag, if_neg (by omega)]
      · rw [if_neg hmag]
  refine ⟨hload s, ?_, ?_, ?_⟩
  · unfold loadComboFromEEPROM
    by_cases hmag : s.eeprom EEPROM_MAGIC_ADDR = EEPROM_MAGIC_VALUE
    · rw [if_pos hmag]
      by_cases hlen : 0 < s.eeprom EEPROM_LENGTH_ADDR ∧
          s.eeprom EEPROM_LENGTH_ADDR ≤ MAX_CARDS
      · rw [if_pos hlen]
      · rw [if_neg hlen]
    · rw [if_neg hmag]
  · intro hmag hp hle hcl
    unfold loadComboFromEEPROM
    rw [if_pos hmag, if_pos ⟨hp, hle⟩]
    refine ⟨rfl, fun i hi => ?_⟩
    show ((List.range _).foldl
      (fun c j => c.set j (s.eeprom (EEPROM_CODE_ADDR + j))) s.correctCode).getD i 0 =
        s.eeprom (EEPROM_CODE_ADDR + i)
    exact foldl_set_getD (fun j => s.eeprom (EEPROM_CODE_ADDR + j)) s.correctCode
      _ (by omega) i hi
  · intro he
    have := hload (initState e) he
    unfold startupState
    rw [this]
    exact ⟨rfl, rfl, rfl⟩

/-- C5 witness: an all-zero image (bad magic), a length-0 record and a
length-11 record are all rejected with the default retained and storage
untouched; a valid length-2 record is accepted. -/
theorem c5_load_validation_witness :
    (startupState zeroEeprom).codeLength = 4 ∧
    (startupState zeroEeprom).correctCode = [1, 2, 3, 4, 0, 0, 0, 0, 0, 0] ∧
    (startupState zeroEeprom).eeprom = zeroEeprom ∧
    loadComboFromEEPROM (initState eLen0) = initState eLen0 ∧
    loadComboFromEEPROM (initState eLen11) = initState eLen11 ∧
    (loadComboFromEEPROM (initState eValid)).codeLength = 2 := by
  have h0 := (c5_load_validation (initState zeroEeprom) zeroEeprom).2.2.2
    (Or.inl (by decide))
  have h1 := (c5_load_validation (initState eLen0) zeroEeprom).1
    (Or.inr (Or.inl (by decide)))
  have h2 := (c5_load_validation (initState eLen11) zeroEeprom).1
    (Or.inr (Or.inr (by decide)))
  have h3 := ((c5_load_validation (initState eValid) zeroEeprom).2.2.1
    (by decide) (by decide) (by decide) (by decide)).1
  exact ⟨h0.2.1, h0.1, h0.2.2, h1, h2, h3.trans (by decide)⟩

/-- C4: completing `SetCombo` never changes the combination's length: once
the accumulator reaches the code length, the persisted record holds the
magic byte, the unchanged length, and the current combination values; the
accumulator resets to 0 and the mode reverts to `Puzzle`. -/
theorem c4_setcombo_completion (inp : TickInput) (s : SysState)
    (h : (handleReader inp s).1.currentIndex ≥ (handleReader inp s).1.codeLength) :
    (setComboLoop inp s).1.codeLength = s.codeLength ∧
    (setComboLoop inp s).1.currentIndex = 0 ∧
    (setComboLoop inp s).1.currentMode = Mode.PUZZLE ∧
    (setComboLoop inp s).1.eeprom EEPROM_MAGIC_ADDR = EEPROM_MAGIC_VALUE ∧
    (setComboLoop inp s).1.eeprom EEPROM_LENGTH_ADDR = s.codeLength ∧
    ∀ i, i < s.codeLength →
      (setComboLoop inp s).1.eeprom (EEPROM_CODE_ADDR + i) =
        (handleReader inp s).1.correctCode.getD i 0 := by
  rw [setComboLoop_complete inp s h]
  obtain ⟨m1, m2, m3, -, -, -, -, -⟩ := saveCombo_spec (handleReader inp s).1
  have hlen := (handleReader_fields inp s).2.1
  refine ⟨?_, rfl, rfl, m1, ?_, ?_⟩
  · show (handleReader inp s).1.codeLength = s.codeLength
    exact hlen
  · show (saveComboToEEPROM (handleReader inp s).1).eeprom EEPROM_LENGTH_ADDR = s.codeLength
    rw [m2]
    exact hlen
  · intro i hi
    exact m3 i (by rw [hlen]; exact hi)

/-- C4 witness: from a length-4 combination, completing `SetCombo` with
values `5,6,7,8` persists the record `{magic, 4, 5, 6, 7, 8}`, resets the
accumulator and reverts to `Puzzle`. -/
theorem c4_setcombo_completion_witness :
    (setComboLoop (cardTick 100 [7] (some 8)) sScThree).1.codeLength = 4 ∧
    (setComboLoop (cardTick 100 [7] (some 8)) sScThree).1.currentIndex = 0 ∧
    (setComboLoop (cardTick 100 [7] (some 8)) sScThree).1.currentMode = Mode.PUZZLE ∧
    (setComboLoop (cardTick 100 [7] (some 8)) sScThree).1.eeprom 0 = 0x42 ∧
    (setComboLoop (cardTick 100 [7] (some 8)) sScThree).1.eeprom 1 = 4 ∧
    (setComboLoop (cardTick 100 [7] (some 8)) sScThree).1.eeprom 2 = 5 ∧
    (setComboLoop (cardTick 100 [7] (some 8)) sScThree).1.eeprom 3 = 6 ∧
    (setComboLoop (cardTick 100 [7] (some 8)) sScThree).1.eeprom 4 = 7 ∧
    (setComboLoop (cardTick 100 [7] (some 8)) sScThree).1.eeprom 5 = 8 := by
  have h := c4_setcombo_completion (cardTick 100 [7] (some 8)) sScThree (by decide)
  refine ⟨h.1, h.2.1, h.2.2.1, h.2.2.2.1, h.2.2.2.2.1, ?_, ?_, ?_, ?_⟩
  · exact (h.2.2.2.2.2 0 (by decide)).trans (by decide)
  · exact (h.2.2.2.2.2 1 (by decide)).trans (by decide)
  · exact (h.2.2.2.2.2 2 (by decide)).trans (by decide)
  · exact (h.2.2.2.2.2 3 (by decide)).trans (by decide)

/-- C8: the card event dispatcher emits exactly one new-card event for a
qualifying placement followed by any run of polls with the card still
present (no intervening absence); an event fires only on the
absent-to-present edge with a UID differing from the tracked identity;
and a non-rate-limited poll seeing the card gone clears the tracked
identity. -/
theorem c8_card_event_dispatcher (inp : TickInput) (inps : List TickInput) (s : SysState) :
    (¬ inp.millisNow - s.lastCardCheckTime < 20 → inp.cardPresent = true →
      s.cardCurrentlyPresent = false → compareUID inp.cardUID s.lastUID = false →
      (∀ i ∈ inps, i.cardPresent = true) →
      dispatchCount (inp :: inps) s = 1) ∧
    (readerDispatched inp s = true →
      s.cardCurrentlyPresent = false ∧ compareUID inp.cardUID s.lastUID = false ∧
      inp.cardPresent = true) ∧
    (¬ inp.millisNow - s.lastCardCheckTime < 20 → inp.cardPresent = false →
      s.cardCurrentlyPresent = true →
      (handleReader inp s).1.lastUID = [] ∧
      (handleReader inp s).1.cardCurrentlyPresent = false) := by
  refine ⟨?_, ?_, ?_⟩
  · intro hg hp hf hu hall
    have hd : readerDispatched inp s = true :=
      (readerDispatched_iff inp s).mpr ⟨hg, hp, hf, hu⟩
    have hflag := handleReader_present_flag inp s hg hp
    have hzero := (dispatchCount_zero_of_present inps (handleReader inp s).1 hall hflag).1
    show (if readerDispatched inp s then 1 else 0) +
      dispatchCount inps (handleReader inp s).1 = 1
    rw [hd, hzero]
    rfl
  · intro hd
    obtain ⟨-, hp, hf, hu⟩ := (readerDispatched_iff inp s).mp hd
    exact ⟨hf, hu, hp⟩
  · intro hg hp hf
    unfold handleReader
    simp [hg, hp, hf]

/-- C8 witness: a concrete placement of UID `[3]` followed by two more
polls with the card still present dispatches exactly one event; and a
removal poll clears the tracked identity. -/
theorem c8_card_event_dispatcher_witness :
    dispatchCount
      [cardTick 100 [3] (some 1), cardTick 140 [3] (some 1), cardTick 180 [3] (some 1)]
      (initState zeroEeprom) = 1 ∧
    (handleReader (releaseTick 100) sGone).1.lastUID = [] := by
  constructor
  · exact (c8_card_event_dispatcher (cardTick 100 [3] (some 1))
      [cardTick 140 [3] (some 1), cardTick 180 [3] (some 1)]
      (initState zeroEeprom)).1 (by decide) rfl rfl (by decide) (by decide)
  · exact ((c8_card_event_dispatcher (releaseTick 100) [] sGone).2.2
      (by decide) rfl rfl).1

/-- C9: when the transport read fails during a placement in `Puzzle`
mode, the attempt is abandoned with the core state unchanged: the failure
presentation is emitted, the accumulator does not grow, and no further
dispatch (hence no retry) happens for any run of polls while the card
stays on the reader. -/
theorem c9_puzzle_read_failure (inp : TickInput) (inps : List TickInput) (s : SysState)
    (hm : s.currentMode = Mode.PUZZLE)
    (hg : ¬ inp.millisNow - s.lastCardCheckTime < 20) (hp : inp.cardPresent = true)
    (hf : s.cardCurrentlyPresent = false)
    (hu : compareUID inp.cardUID s.lastUID = false)
    (hr : inp.readResult = none)
    (hall : ∀ i ∈ inps, i.cardPresent = true) :
    (handleReader inp s).1.currentIndex = s.currentIndex ∧
    (handleReader inp s).1.enteredValues = s.enteredValues ∧
    Event.animateWriteFailure ∈ (handleReader inp s).2 ∧
    dispatchCount inps (handleReader inp s).1 = 0 ∧
    (runReader inps (handleReader inp s).1).currentIndex = s.currentIndex ∧
    (runReader inps (handleReader inp s).1).enteredValues = s.enteredValues := by
  obtain ⟨hidx, hev, hflag, hmem⟩ := handleReader_puzzle_read_fail inp s hm hg hp hf hu hr
  obtain ⟨hzero, hridx, hrev⟩ :=
    dispatchCount_zero_of_present inps (handleReader inp s).1 hall hflag
  exact ⟨hidx, hev, hmem, hzero, hridx.trans hidx, hrev.trans hev⟩

/-- C9 witness: a concrete failed read in a fresh puzzle state leaves the
accumulator at 0 through two further polls with the card present. -/
theorem c9_puzzle_read_failure_witness :
    (handleReader (cardTick 100 [3] none) (initState zeroEeprom)).1.currentIndex = 0 ∧
    Event.animateWriteFailure ∈
      (handleReader (cardTick 100 [3] none) (initState zeroEeprom)).2 ∧
    (runReader [cardTick 140 [3] none, cardTick 180 [3] none]
      (handleReader (cardTick 100 [3] none) (initState zeroEeprom)).1).currentIndex = 0 := by
  have h := c9_puzzle_read_failure (cardTick 100 [3] none)
    [cardTick 140 [3] none, cardTick 180 [3] none] (initState zeroEeprom)
    rfl (by decide) rfl rfl (by decide) rfl (by decide)
  exact ⟨h.1, h.2.2.1, h.2.2.2.2.1⟩

/-- `puzzleLoop` never changes the combination or the storage beyond what
the reader poll does. -/
theorem puzzleLoop_frame (inp : TickInput) (s : SysState) :
    (puzzleLoop inp s).1.correctCode = (handleReader inp s).1.correctCode ∧
    (puzzleLoop inp s).1.eeprom = (handleReader inp s).1.eeprom := by
  by_cases hc : (handleReader inp s).1.currentIndex ≥ (handleReader inp s).1.codeLength
  · rw [puzzleLoop_complete inp s hc]
    split <;> exact ⟨rfl, rfl⟩
  · rw [puzzleLoop_incomplete inp s hc]
    exact ⟨rfl, rfl⟩

/-- The gesture check never changes the combination, the storage or the
code length. -/
theorem checkButtonPress_frame (inp : TickInput) (s : SysState) :
    (checkButtonPress inp s).1.correctCode = s.correctCode ∧
    (checkButtonPress inp s).1.eeprom = s.eeprom ∧
    (checkButtonPress inp s).1.codeLength = s.codeLength := by
  rcases checkButtonPress_cases inp s with hc | hc | hc | hc | hc <;> rw [hc] <;>
    exact ⟨rfl, rfl, rfl⟩

/-- In `PROGRAM` mode a whole tick body leaves the combination and the
storage untouched. -/
theorem programmingLoop_frame (inp : TickInput) (s : SysState)
    (hm : s.currentMode = Mode.PROGRAM) :
    (programmingLoop inp s).1.correctCode = s.correctCode ∧
    (programmingLoop inp s).1.eeprom = s.eeprom := by
  have key : ∀ t : SysState, t.currentMode = Mode.PROGRAM →
      t.correctCode = s.correctCode → t.eeprom = s.eeprom →
      (handleReader inp t).1.correctCode = s.correctCode ∧
      (handleReader inp t).1.eeprom = s.eeprom := by
    intro t htm htc hte
    refine ⟨((handleReader_program inp t htm).2.2).trans htc, ?_⟩
    exact ((handleReader_fields inp t).2.2.1).trans hte
  unfold programmingLoop
  by_cases hb : inp.buttonLow = true <;>
    by_cases hpb : s.progButtonWasPressed = true <;>
    simp only [hb, hpb, Bool.not_true, Bool.not_false, if_true, if_false,
      Bool.false_eq_true, ite_true, ite_false] <;>
    exact key _ hm rfl rfl

/-- C10: in every reachable state of the main loop the accumulator index
is at most the code length and the code length is in `1..MAX_CARDS`, the
two ten-element arrays keep their size, and at the point in the tick
where `handleReader` performs its writes `enteredValues[currentIndex]` /
`correctCode[currentIndex]` (right after the gesture check) the index is
strictly below the code length, hence below the 10-element array bound. -/
theorem c10_index_bounds (e : Nat → Nat) (s : SysState) (h : Reachable e s) :
    s.currentIndex ≤ s.codeLength ∧ 1 ≤ s.codeLength ∧ s.codeLength ≤ MAX_CARDS ∧
    s.correctCode.length = MAX_CARDS ∧ s.enteredValues.length = MAX_CARDS ∧
    ∀ inp : TickInput,
      (checkButtonPress inp s).1.currentIndex < (checkButtonPress inp s).1.codeLength ∧
      (checkButtonPress inp s).1.codeLength ≤ MAX_CARDS := by
  obtain ⟨h1, h2, h3, h4, h5⟩ := inv_reachable e s h
  refine ⟨Nat.le_of_lt h1, h2, h3, h4, h5, fun inp => ?_⟩
  obtain ⟨g1, -, g3, -, -⟩ := checkButtonPress_inv inp s ⟨h1, h2, h3, h4, h5⟩
  exact ⟨g1, g3⟩

/-- C10 witness at the freshly booted state with an all-zero EEPROM. -/
theorem c10_index_bounds_witness :
    (startupState zeroEeprom).currentIndex ≤ (startupState zeroEeprom).codeLength ∧
    (startupState zeroEeprom).codeLength ≤ MAX_CARDS ∧
    (checkButtonPress (holdTick 1000) (startupState zeroEeprom)).1.currentIndex <
      (checkButtonPress (holdTick 1000) (startupState zeroEeprom)).1.codeLength := by
  have h := c10_index_bounds zeroEeprom (startupState zeroEeprom) Reachable.init
  exact ⟨h.1, h.2.2.1, (h.2.2.2.2.2 (holdTick 1000)).1⟩

/-- C2 counterexample: after a long hold into `SetCombo` and a single
card entry reading 9 (from a persisted `[1,2,3,4]` record), the machine
is in a reachable state whose in-memory combination already starts with 9
while the sequence is not complete (index 1 of 4) and the storage still
holds the old record: the combination is mutated before the `SetCombo`
completion step, and the in-memory combination differs from the last
persisted record. -/
theorem c2_counterexample :
    Reachable eDefault c2state ∧
    c2state.currentMode = Mode.SET_COMBO ∧
    c2state.currentIndex = 1 ∧
    c2state.currentIndex < c2state.codeLength ∧
    c2state.correctCode.getD 0 0 = 9 ∧
    c2state.eeprom = eDefault ∧
    c2state.eeprom (EEPROM_CODE_ADDR + 0) = 1 ∧
    c2state.correctCode.getD 0 0 ≠ c2state.eeprom (EEPROM_CODE_ADDR + 0) := by
  refine ⟨?_, by decide, by decide, by decide, by decide, by rfl, by decide, by decide⟩
  exact Reachable.step (cardTick 6100 [7] (some 9))
    (Reachable.step (releaseTick 6000)
      (Reachable.step (holdTick 1000) Reachable.init))

/-- C2 (amended): the combination is mutated by `SetCombo` card entries
(each accepted card immediately overwrites one position, before the new
sequence is complete) and is untouched by any tick whose dispatch mode is
not `SetCombo`; the storage is written only by the `SetCombo` completion
step, and whenever it is written it ends up holding exactly the in-memory
combination (magic byte, length, values). -/
theorem c2_combination_persistence_amended (inp : TickInput) (s : SysState) :
    ((checkButtonPress inp s).1.currentMode ≠ Mode.SET_COMBO →
      (loopTick inp s).1.correctCode = s.correctCode) ∧
    ((loopTick inp s).1.eeprom = s.eeprom ∨
      ((checkButtonPress inp s).1.currentMode = Mode.SET_COMBO ∧
       (loopTick inp s).1.eeprom EEPROM_MAGIC_ADDR = EEPROM_MAGIC_VALUE ∧
       (loopTick inp s).1.eeprom EEPROM_LENGTH_ADDR = (loopTick inp s).1.codeLength ∧
       ∀ i, i < (loopTick inp s).1.codeLength →
         (loopTick inp s).1.eeprom (EEPROM_CODE_ADDR + i) =
           (loopTick inp s).1.correctCode.getD i 0)) := by
  obtain ⟨bc, be, bl⟩ := checkButtonPress_frame inp s
  unfold loopTick
  rcases hm : (checkButtonPress inp s).1.currentMode <;> simp only [hm]
  case PUZZLE =>
    obtain ⟨pc, pe⟩ := puzzleLoop_frame inp (checkButtonPress inp s).1
    constructor
    · intro _
      rw [pc, handleReader_correctCode_stable inp _ (by rw [hm]; exact nofun), bc]
    · left
      rw [pe, (handleReader_fields inp _).2.2.1, be]
  case PROGRAM =>
    obtain ⟨pc, pe⟩ := programmingLoop_frame inp (checkButtonPress inp s).1 hm
    exact ⟨fun _ => pc.trans bc, Or.inl (pe.trans be)⟩
  case SET_COMBO =>
    refine ⟨fun hne => absurd rfl hne, ?_⟩
    by_cases hc : (handleReader inp (checkButtonPress inp s).1).1.currentIndex ≥
        (handleReader inp (checkButtonPress inp s).1).1.codeLength
    · right
      rw [setComboLoop_complete inp _ hc]
      obtain ⟨m1, m2, m3, -, -, -, -, -⟩ :=
        saveCombo_spec (handleReader inp (checkButtonPress inp s).1).1
      exact ⟨trivial, m1, m2, m3⟩
    · left
      rw [setComboLoop_incomplete inp _ hc]
      exact ((handleReader_fields inp _).2.2.1).trans be

/-- C2 (amended) witness: a concrete tick whose dispatch mode is `Puzzle`
leaves the combination unchanged. -/
theorem c2_combination_persistence_amended_witness :
    (loopTick (holdTick 1000) (startupState eDefault)).1.correctCode =
      (startupState eDefault).correctCode :=
  (c2_combination_persistence_amended (holdTick 1000) (startupState eDefault)).1
    (by decide)

end RfidPuzzle
